import Mathlib

/-!
Verification of the graph feature-generation core of the article-separation
repository (`citlab_article_separation/gnn/input/feature_generation.py`).

The Python source is shallowly embedded: integer pixel coordinates become `ℤ`,
Python float arithmetic on half-integers and aspect ratios (which is exact for
the quantities the code manipulates) becomes `ℚ`, lists become `List`, dict
lookups become `Option`-valued functions, and a raised exception becomes the
`Except.error` case.  Mutation of a Python list (the one mutation the code
performs, in `line_poly_intersection`) is embedded by returning the updated
list alongside the result.
-/

namespace ArticleSep

/-- Integer pixel point, as stored in a PAGE-XML `points_list`. -/
abbrev IPoint := ℤ × ℤ

/-- Exact embedding of a Python float point (centers are half-integers). -/
abbrev QPoint := ℚ × ℚ

/-- Coerce an integer point to a rational point. -/
def toQ (p : IPoint) : QPoint := ((p.1 : ℚ), (p.2 : ℚ))

/-- Bounding box `(min_x, max_x, min_y, max_y)` as returned by
`get_bounding_box` in the source. -/
structure BBox where
  minX : ℤ
  maxX : ℤ
  minY : ℤ
  maxY : ℤ
deriving DecidableEq

/-- Embedding of `get_bounding_box(points)` (feature_generation.py:313-317):
min/max reduction over the coordinates.  `np.min`/`np.max` raise on an empty
array; the claims only apply this to nonempty point lists, and the empty case
is given a dummy value here. -/
def get_bounding_box (ps : List IPoint) : BBox :=
  match ps with
  | [] => ⟨0, 0, 0, 0⟩
  | p :: rest =>
    rest.foldl (fun bb q => ⟨min bb.minX q.1, max bb.maxX q.1, min bb.minY q.2, max bb.maxY q.2⟩)
      ⟨p.1, p.1, p.2, p.2⟩

/-- A text line: id and raw text (the fields the embedded code reads). -/
structure TextLine where
  id : String
  text : String
deriving DecidableEq

/-- A text region: id, surrounding polygon, its text lines and the
category tag (`region_type`). -/
structure TextRegion where
  id : String
  points : List IPoint
  textLines : List TextLine
  regionType : String
deriving DecidableEq

/-- A separator region: id, surrounding polygon, and the orientation tag as
returned by `get_orientation()` (`none` when the PAGE-XML carries no custom
orientation tag). -/
structure SeparatorRegion where
  id : String
  points : List IPoint
  orientation : Option String
deriving DecidableEq

/-!  Segment intersection.

The source tests `line.intersects(segment)` on shapely `LineString`s, which
for two closed segments holds iff they share at least one point.  This is the
classical orientation/on-segment characterization.  -/

/-- Twice the signed area of the triangle `(p, q, r)`. -/
def orientQ (p q r : QPoint) : ℚ :=
  (q.1 - p.1) * (r.2 - p.2) - (q.2 - p.2) * (r.1 - p.1)

/-- Given `r` collinear with segment `p q`, does `r` lie on the segment? -/
def onSegment (p q r : QPoint) : Bool :=
  decide (min p.1 q.1 ≤ r.1) && decide (r.1 ≤ max p.1 q.1) &&
  decide (min p.2 q.2 ≤ r.2) && decide (r.2 ≤ max p.2 q.2)

/-- Closed segments `p1 p2` and `p3 p4` share at least one point: the meaning
of shapely `LineString([p1, p2]).intersects(LineString([p3, p4]))`.  A proper
crossing is detected by strictly opposite orientation signs (`d1 * d2 < 0`),
and the remaining cases are a collinear endpoint lying on the other segment. -/
def segmentsIntersect (p1 p2 p3 p4 : QPoint) : Bool :=
  (decide (orientQ p3 p4 p1 * orientQ p3 p4 p2 < 0) &&
    decide (orientQ p1 p2 p3 * orientQ p1 p2 p4 < 0)) ||
  (decide (orientQ p3 p4 p1 = 0) && onSegment p3 p4 p1) ||
  (decide (orientQ p3 p4 p2 = 0) && onSegment p3 p4 p2) ||
  (decide (orientQ p1 p2 p3 = 0) && onSegment p1 p2 p3) ||
  (decide (orientQ p1 p2 p4 = 0) && onSegment p1 p2 p4)

theorem orientQ_swap (p q r : QPoint) : orientQ q p r = -orientQ p q r := by
  simp only [orientQ]; ring

theorem onSegment_swap (p q r : QPoint) : onSegment q p r = onSegment p q r := by
  simp only [onSegment, min_comm, max_comm]

/-- Swapping the endpoints of the first segment does not change the
intersection test. -/
theorem segmentsIntersect_swap (p1 p2 p3 p4 : QPoint) :
    segmentsIntersect p2 p1 p3 p4 = segmentsIntersect p1 p2 p3 p4 := by
  simp only [segmentsIntersect]
  rw [orientQ_swap p2 p1 p3, orientQ_swap p2 p1 p4, onSegment_swap p2 p1 p3,
    onSegment_swap p2 p1 p4, mul_comm (orientQ p3 p4 p2) (orientQ p3 p4 p1), neg_mul_neg]
  simp only [neg_eq_zero]
  rw [Bool.or_assoc (_ && _), Bool.or_comm (decide (orientQ p3 p4 p2 = 0) && _),
    ← Bool.or_assoc (_ && _)]

/-- Consecutive vertex pairs of a polygon, matching the loop
`for i in range(len(polygon) - 1)` in `line_poly_intersection`
(feature_generation.py:326-331). -/
def polySegments (poly : List IPoint) : List (IPoint × IPoint) :=
  poly.zip poly.tail

/-- The closing step of `line_poly_intersection` (feature_generation.py:322-324):
`if polygon[0] != polygon[-1]: polygon.append(polygon[0])`.  This mutates the
caller's list; the updated list is the value returned here.  The source raises
an IndexError on an empty list; here the empty list is returned unchanged. -/
def closePoly (poly : List IPoint) : List IPoint :=
  if poly.head? ≠ poly.getLast? then poly ++ poly.head?.toList else poly

/-- Embedding of `line_poly_intersection(line, polygon)`
(feature_generation.py:320-332).  The polygon is optionally closed in place
(a mutation of the argument, hence the updated list in the result), then each
polygon segment is tested against the line, returning on the first hit. -/
def line_poly_intersection (a b : QPoint) (polygon : List IPoint) : Bool × List IPoint :=
  let poly := closePoly polygon
  ((polySegments poly).any (fun s => segmentsIntersect a b (toQ s.1) (toQ s.2)), poly)

/-- Embedding of `line_in_bounding_box(line, min_x, max_x, min_y, max_y)`
(feature_generation.py:335-340): `line.bounds` of a two-point LineString is
componentwise min/max of the endpoints, and the test is strict containment. -/
def line_in_bounding_box (a b : QPoint) (minX maxX minY maxY : ℤ) : Bool :=
  decide ((minX : ℚ) < min a.1 b.1) && decide (max a.1 b.1 < (maxX : ℚ)) &&
  decide ((minY : ℚ) < min a.2 b.2) && decide (max a.2 b.2 < (maxY : ℚ))

theorem line_poly_intersection_swap (a b : QPoint) (polygon : List IPoint) :
    line_poly_intersection b a polygon = line_poly_intersection a b polygon := by
  simp only [line_poly_intersection]
  refine congrArg (fun x => (x, closePoly polygon)) ?_
  induction polySegments (closePoly polygon) with
  | nil => rfl
  | cons s rest ih => simp only [List.any_cons, ih, segmentsIntersect_swap]

theorem line_in_bounding_box_swap (a b : QPoint) (minX maxX minY maxY : ℤ) :
    line_in_bounding_box b a minX maxX minY maxY = line_in_bounding_box a b minX maxX minY maxY := by
  simp only [line_in_bounding_box, min_comm, max_comm]

/-- Height/width ratio of a separator's bounding box, with the
`max(_, 1)` guards of the source (feature_generation.py:281-283). -/
def sepRatio (bb : BBox) : ℚ :=
  let width := max (bb.maxX - bb.minX) 1
  let height := max (bb.maxY - bb.minY) 1
  (height : ℚ) / (width : ℚ)

/-- Embedding of the comparison `separator_region == 'vertical'` at
feature_generation.py:297.  The left operand is the SeparatorRegion *object*,
not its orientation tag; Python `==` between a SeparatorRegion and a string is
always False, so this test can never succeed. -/
def separatorEqString (_s : SeparatorRegion) (_str : String) : Bool := false

/-- Center of a text region's bounding box (feature_generation.py:263-269);
the Python float division by 2 is exact on half-integers, embedded in `ℚ`. -/
def regionCenter (tr : TextRegion) : QPoint :=
  let bb := get_bounding_box tr.points
  (((bb.minX + bb.maxX : ℤ) : ℚ) / 2, ((bb.minY + bb.maxY : ℤ) : ℚ) / 2)

/-- The classification block of `get_edge_separator_feature_line` on a hit
(feature_generation.py:294-305): an explicit "horizontal" tag sets the
horizontal flag; the next test is the always-false object-to-string
comparison (see `separatorEqString`); otherwise the aspect-ratio fallback
decides.  The flags are only ever raised, never cleared. -/
def classifySeparatorHit (s : SeparatorRegion) (ratio : ℚ) (h v : Bool) : Bool × Bool :=
  if s.orientation = some "horizontal" then (true, v)
  else if separatorEqString s "vertical" then (h, true)
  else if ratio < 5 then (true, v) else (h, true)

/-- The per-separator loop of `get_edge_separator_feature_line`
(feature_generation.py:275-307), with the flags threaded through and the
(possibly mutated) separator list returned: for each separator, a cheap
pre-filter against its bounding box, then the precise polygon test (which may
close the polygon in place), then classification by orientation tag with the
aspect-ratio fallback, with early exit once both flags hold. -/
def lineSepLoop (a b : QPoint) : List SeparatorRegion → Bool → Bool → Bool × Bool × List SeparatorRegion
  | [], h, v => (h, v, [])
  | s :: rest, h, v =>
    let bb := get_bounding_box s.points
    let corners : List IPoint := [(bb.minX, bb.minY), (bb.maxX, bb.minY), (bb.minX, bb.maxY), (bb.maxX, bb.maxY)]
    if (line_poly_intersection a b corners).1 || line_in_bounding_box a b bb.minX bb.maxX bb.minY bb.maxY then
      let hit := line_poly_intersection a b s.points
      let s1 : SeparatorRegion := { s with points := hit.2 }
      if hit.1 then
        let hv := classifySeparatorHit s (sepRatio bb) h v
        if hv.1 && hv.2 then (hv.1, hv.2, s1 :: rest)
        else
          let r := lineSepLoop a b rest hv.1 hv.2
          (r.1, r.2.1, s1 :: r.2.2)
      else
        let r := lineSepLoop a b rest h v
        (r.1, r.2.1, s1 :: r.2.2)
    else
      let r := lineSepLoop a b rest h v
      (r.1, r.2.1, s :: r.2.2)

/-- Embedding of `get_edge_separator_feature_line(text_region_a, text_region_b,
separator_regions)` (feature_generation.py:246-310).  The returned pair is the
2-dimensional `[float(horizontally_separated), float(vertically_separated)]`
feature and the separator list after the call (whose polygon point lists the
source may have mutated). -/
def get_edge_separator_feature_line (ta tb : TextRegion) (seps : List SeparatorRegion) :
    List ℚ × List SeparatorRegion :=
  let ca := regionCenter ta
  let cb := regionCenter tb
  let r := lineSepLoop ca cb seps false false
  ([if r.1 then 1 else 0, if r.2.1 then 1 else 0], r.2.2)

theorem lineSepLoop_swap (a b : QPoint) (l : List SeparatorRegion) :
    ∀ h v, lineSepLoop b a l h v = lineSepLoop a b l h v := by
  induction l with
  | nil => intro h v; rfl
  | cons s rest ih =>
    intro h v
    simp only [lineSepLoop, line_poly_intersection_swap a b, line_in_bounding_box_swap a b, ih]

/-- Embedding of `is_vertically_separated` (feature_generation.py:392-405):
the separator's horizontal midpoint (exact in `ℚ`) lies between the regions'
x-ranges in either order, and at least one region's y-range meets the
separator's y-range.  The source returns early; the two guards are embedded
as the same if-chain. -/
def is_vertically_separated (min_x_a max_x_a min_y_a max_y_a
    min_x_b max_x_b min_y_b max_y_b
    min_x_sep max_x_sep min_y_sep max_y_sep : ℤ) : Bool :=
  let mean_x_sep : ℚ := ((min_x_sep + max_x_sep : ℤ) : ℚ) / 2
  if ¬ (((max_x_a : ℚ) ≤ mean_x_sep ∧ mean_x_sep ≤ (min_x_b : ℚ)) ∨
        ((max_x_b : ℚ) ≤ mean_x_sep ∧ mean_x_sep ≤ (min_x_a : ℚ))) then false
  else if ¬ ((max_y_a ≥ min_y_sep ∧ min_y_a ≤ max_y_sep) ∨
             (max_y_b ≥ min_y_sep ∧ min_y_b ≤ max_y_sep)) then false
  else true

/-- Embedding of `is_horizontally_separated` (feature_generation.py:408-421):
the separator's y-range starts below one region's top and ends above the other
region's bottom, and it is not the case that both regions lie entirely on the
same side of the separator's x-range. -/
def is_horizontally_separated (min_x_a max_x_a min_y_a max_y_a
    min_x_b max_x_b min_y_b max_y_b
    min_x_sep max_x_sep min_y_sep max_y_sep : ℤ) : Bool :=
  if ¬ ((min_y_a ≤ min_y_sep ∧ max_y_sep ≤ max_y_b) ∨
        (min_y_b ≤ min_y_sep ∧ max_y_sep ≤ max_y_a)) then false
  else if (max_x_a ≤ min_x_sep ∧ max_x_b ≤ min_x_sep) ∨
          (min_x_a ≥ max_x_sep ∧ min_x_b ≥ max_x_sep) then false
  else true

/-- Orientation resolution in `get_edge_separator_feature_bb`
(feature_generation.py:371-377): the explicit tag when present, otherwise the
aspect-ratio heuristic. -/
def resolveOrientation (s : SeparatorRegion) (bb : BBox) : String :=
  match s.orientation with
  | some o => o
  | none => if sepRatio bb < 5 then "horizontal" else "vertical"

/-- The per-separator loop of `get_edge_separator_feature_bb`
(feature_generation.py:365-386): resolve the orientation, apply the matching
bounding-box rule, stop early once both flags hold. -/
def bbSepLoop (bba bbb : BBox) : List SeparatorRegion → Bool → Bool → Bool × Bool
  | [], h, v => (h, v)
  | s :: rest, h, v =>
    let bbs := get_bounding_box s.points
    let orientation := resolveOrientation s bbs
    let v1 := if orientation = "vertical" then
        (if is_vertically_separated bba.minX bba.maxX bba.minY bba.maxY
            bbb.minX bbb.maxX bbb.minY bbb.maxY
            bbs.minX bbs.maxX bbs.minY bbs.maxY then true else v)
      else v
    let h1 := if orientation = "vertical" then h
      else
        (if is_horizontally_separated bba.minX bba.maxX bba.minY bba.maxY
            bbb.minX bbb.maxX bbb.minY bbb.maxY
            bbs.minX bbs.maxX bbs.minY bbs.maxY then true else h)
    if h1 && v1 then (h1, v1) else bbSepLoop bba bbb rest h1 v1

/-- Embedding of `get_edge_separator_feature_bb(text_region_a, text_region_b,
separator_regions)` (feature_generation.py:343-389): the 2-dimensional
`[float(horizontally_separated), float(vertically_separated)]` feature from
the bounding-box rules. -/
def get_edge_separator_feature_bb (ta tb : TextRegion) (seps : List SeparatorRegion) : List ℚ :=
  let bba := get_bounding_box ta.points
  let bbb := get_bounding_box tb.points
  let r := bbSepLoop bba bbb seps false false
  [if r.1 then 1 else 0, if r.2 then 1 else 0]

theorem is_vertically_separated_swap (xa Xa ya Ya xb Xb yb Yb xs Xs ys Ys : ℤ) :
    is_vertically_separated xb Xb yb Yb xa Xa ya Ya xs Xs ys Ys =
    is_vertically_separated xa Xa ya Ya xb Xb yb Yb xs Xs ys Ys := by
  simp only [is_vertically_separated]
  refine if_congr ?_ rfl (if_congr ?_ rfl rfl) <;> tauto

theorem is_horizontally_separated_swap (xa Xa ya Ya xb Xb yb Yb xs Xs ys Ys : ℤ) :
    is_horizontally_separated xb Xb yb Yb xa Xa ya Ya xs Xs ys Ys =
    is_horizontally_separated xa Xa ya Ya xb Xb yb Yb xs Xs ys Ys := by
  simp only [is_horizontally_separated]
  refine if_congr ?_ rfl (if_congr ?_ rfl rfl) <;> tauto

theorem bbSepLoop_swap (bba bbb : BBox) (l : List SeparatorRegion) :
    ∀ h v, bbSepLoop bbb bba l h v = bbSepLoop bba bbb l h v := by
  induction l with
  | nil => intro h v; rfl
  | cons s rest ih =>
    intro h v
    simp only [bbSepLoop,
      is_vertically_separated_swap bba.minX bba.maxX bba.minY bba.maxY bbb.minX bbb.maxX bbb.minY bbb.maxY,
      is_horizontally_separated_swap bba.minX bba.maxX bba.minY bba.maxY bbb.minX bbb.maxX bbb.minY bbb.maxY,
      ih]

/-- A region is discarded for lacking text (feature_generation.py:600):
no lines at all, or every line's text equal to the empty string. -/
def regionNoText (tr : TextRegion) : Bool :=
  tr.textLines.isEmpty || tr.textLines.all (fun l => l.text = "")

/-- A region is discarded for a too-small bounding box
(feature_generation.py:606-607): width or height of the bounding box of its
surrounding polygon below 10 (the external `get_bounding_box` of
citlab_python_util measures width as `max_x - min_x` and height as
`max_y - min_y`). -/
def regionTooSmall (tr : TextRegion) : Bool :=
  let bb := get_bounding_box tr.points
  decide (bb.maxX - bb.minX < 10) || decide (bb.maxY - bb.minY < 10)

/-- Embedding of `discard_text_regions_and_lines(text_regions, text_lines)`
(feature_generation.py:592-620).  The source iterates over a copy of the
region list while removing from the live list, which keeps every surviving
region in input order; line ids are collected for removal only in the
too-small branch (the no-text branch `continue`s without collecting), and
only when a line list was passed; the line list is rebuilt only when the
collected set is nonempty (a no-op filter otherwise, embedded by the same
guard). -/
def discard_text_regions_and_lines (text_regions : List TextRegion) (text_lines : List TextLine) :
    List TextRegion × List TextLine :=
  let kept := text_regions.filter (fun tr => !(regionNoText tr) && !(regionTooSmall tr))
  let linesToRemove :=
    if text_lines.isEmpty then []
    else (text_regions.filter (fun tr => !(regionNoText tr) && regionTooSmall tr)).flatMap
      (fun tr => tr.textLines.map (fun l => l.id))
  let newLines :=
    if linesToRemove.isEmpty then text_lines
    else text_lines.filter (fun l => !(linesToRemove.contains l.id))
  (kept, newLines)

/-!  Topology builder. -/

/-- Embedding of `np.delete(arr, indices, axis=0)` on a list of rows: keep the
rows whose position is not selected by the predicate, threading the running
position. -/
def delIdx {α : Type} : List α → Nat → (Nat → Bool) → List α
  | [], _, _ => []
  | x :: xs, k, P => if P k then delIdx xs (k + 1) P else x :: delIdx xs (k + 1) P

/-- The row-major list of all ordered index pairs `(i, j)`, `i, j < n`: the
meaning of `np.stack([node_indices_t, node_indices], axis=2).reshape([-1, 2])`
built from the tiled/transposed `np.arange(num_nodes)`
(feature_generation.py:555-559). -/
def allPairsRowMajor (n : Nat) : List (Nat × Nat) :=
  (List.range n).flatMap (fun i => (List.range n).map (fun j => (i, j)))

/-- Embedding of `fully_connected_edges(num_nodes)`
(feature_generation.py:548-563): all ordered pairs in row-major order with the
flat positions `i * (num_nodes + 1)` (the self-pairs) deleted. -/
def fully_connected_edges (num_nodes : Nat) : List (Nat × Nat) :=
  let delIndices := (List.range num_nodes).map (fun i => i * (num_nodes + 1))
  delIdx (allPairsRowMajor num_nodes) 0 (fun k => delIndices.contains k)

/-- The deterministic order the spec describes for the Fully topology: outer
loop over the source index, inner loop over the target index, self-pairs
removed. -/
def orderedPairsNoSelf (n : Nat) : List (Nat × Nat) :=
  (List.range n).flatMap (fun i => ((List.range n).filter (fun j => j ≠ i)).map (fun j => (i, j)))

/-!  Page-level pipeline skeleton.

`build_input_and_target` (feature_generation.py:637-857) interacts with
external collaborators: the PAGE-XML parser, the filesystem lookup of the
page's image, and scipy's Delaunay triangulation.  Their outcomes for a page
are embedded as oracle data carried by `PageData`; the control flow around
them is the code under verification. -/

inductive Interaction
  | fully
  | delaunay
deriving DecidableEq

/-- The two exceptions of the pipeline that can escape a page's processing:
the ValueError of `get_textline_stroke_widths_heights_dist_trafo`
(feature_generation.py:154-155) when no image file is found, and the QhullError
of `delaunay_edges` (feature_generation.py:577-581) when the triangulation
fails on the rounded and then on the raw positions. -/
inductive PageError
  | noImage
  | qhullBothFailed
deriving DecidableEq

/-- Per-page oracle data: what the external collaborators would report for
this page.  `numNodes` is the number of regions surviving the discard pass. -/
structure PageData where
  hasTextRegions : Bool
  numNodes : Nat
  imgFound : Bool
  delaunaySmoothOk : Bool
  delaunayRawOk : Bool
  delaunayEdgesResult : List (Nat × Nat)
deriving DecidableEq

/-- Control-flow skeleton of `build_input_and_target`
(feature_generation.py:637-857), reduced to the edge-set output: `Except` for
a raised exception, `none` for the skip-returns (no TextRegion at 670-673,
fewer than two nodes at 680-682), the image lookup (685) before topology, then
the edge set: Fully when requested or when fewer than four nodes (729-730),
otherwise Delaunay with the rounded-then-raw retry (577-581). -/
def build_input_and_target (interaction : Interaction) (p : PageData) :
    Except PageError (Option (List (Nat × Nat))) :=
  if ¬ p.hasTextRegions then .ok none
  else if p.numNodes ≤ 1 then .ok none
  else if ¬ p.imgFound then .error .noImage
  else if interaction = .fully ∨ p.numNodes < 4 then .ok (some (fully_connected_edges p.numNodes))
  else if p.delaunaySmoothOk ∨ p.delaunayRawOk then .ok (some p.delaunayEdgesResult)
  else .error .qhullBothFailed

/-- The batch loop of `generate_feature_jsons` (feature_generation.py:899-955):
each page is processed in order; a `None` result appends the page to
`skipped_pages` and the loop continues; an exception raised inside
`build_input_and_target` is not caught and aborts the whole loop.  The result
collects (written pages, skipped pages). -/
def generate_feature_jsons (interaction : Interaction) :
    List PageData → Except PageError (List PageData × List PageData)
  | [] => .ok ([], [])
  | p :: rest =>
    match build_input_and_target interaction p with
    | .error e => .error e
    | .ok none =>
      match generate_feature_jsons interaction rest with
      | .error e => .error e
      | .ok (w, s) => .ok (w, p :: s)
    | .ok (some _) =>
      match generate_feature_jsons interaction rest with
      | .error e => .error e
      | .ok (w, s) => .ok (p :: w, s)

/-!  Ground-truth builder. -/

/-- An article assignment as stored in the `article_dict`: a single id, or a
list of ids for an ambiguous region. -/
inductive ArticleId
  | single (s : String)
  | idList (ls : List String)
deriving DecidableEq

/-- The effective assignment of feature_generation.py:828-836: a list of more
than one id is replaced by its first id; anything else (including a
one-element or empty list) is kept as is. -/
def effectiveId : ArticleId → ArticleId
  | .idList (a :: _ :: _) => .single a
  | x => x

/-- The per-region effective assignments (`tr_gt_article_ids`,
feature_generation.py:825-836). -/
def trGtArticleIds (assigns : List ArticleId) : List ArticleId :=
  assigns.map effectiveId

/-- The ground-truth relation list of feature_generation.py:838-842: for every
ordered index pair `(i, j)` (in the double-enumerate order), emit `(1, i, j)`
when the effective assignments are equal. -/
def gtRelations (assigns : List ArticleId) : List (Nat × Nat × Nat) :=
  let ids := trGtArticleIds assigns
  (List.range ids.length).flatMap (fun i =>
    (List.range ids.length).filterMap (fun j =>
      if ids.getD i (.single "") = ids.getD j (.single "") then some (1, i, j) else none))

/-!  External feature sources. -/

/-- The per-page entry of one external feature json: the optional
`node_features` mapping with its optional scalar `default`, and the optional
`edge_features` nested mapping with its optional vector `default`.  A failed
dict lookup (`KeyError`, and for the nested edge lookup also `TypeError` when
the first level yields a non-dict) is embedded as `none`. -/
structure ExtPageEntry where
  nodeTable : Option ((String → Option (List ℚ)) × Option ℚ)
  edgeTable : Option ((String → Option (String → Option (List ℚ))) × Option (List ℚ))

/-- The node-feature extension for one external source
(feature_generation.py:714-724): the region's entry, else `[default]` (the
source wraps the scalar default in a one-element list), else `[0.0]`. -/
def extendNodeExternal (entry : ExtPageEntry) (regionId : String) (acc : List ℚ) : List ℚ :=
  match entry.nodeTable with
  | none => acc
  | some (tbl, dflt) =>
    match tbl regionId with
    | some v => acc ++ v
    | none =>
      match dflt with
      | some d => acc ++ [d]
      | none => acc ++ [0]

/-- The two-level edge lookup `ext_page['edge_features'][id_a][id_b]`
(feature_generation.py:781). -/
def edgeSpecificLookup (tbl : String → Option (String → Option (List ℚ)))
    (idA idB : String) : Option (List ℚ) :=
  match tbl idA with
  | none => none
  | some row => row idB

/-- The edge-feature extension for one external source
(feature_generation.py:779-789): the pair's entry, else the `default` vector,
else `[0.5]`. -/
def extendEdgeExternal (entry : ExtPageEntry) (idA idB : String) (acc : List ℚ) : List ℚ :=
  match entry.edgeTable with
  | none => acc
  | some (tbl, dflt) =>
    match edgeSpecificLookup tbl idA idB with
    | some v => acc ++ v
    | none =>
      match dflt with
      | some d => acc ++ d
      | none => acc ++ [1/2]

/-- The loop over external sources for one node (feature_generation.py:707-724):
a source whose json lacks the page key is skipped. -/
def appendExternalNodeFeatures (sources : List (String → Option ExtPageEntry))
    (pageKey regionId : String) (acc : List ℚ) : List ℚ :=
  sources.foldl (fun acc src =>
    match src pageKey with
    | none => acc
    | some entry => extendNodeExternal entry regionId acc) acc

/-- The loop over external sources for one edge (feature_generation.py:772-789). -/
def appendExternalEdgeFeatures (sources : List (String → Option ExtPageEntry))
    (pageKey idA idB : String) (acc : List ℚ) : List ℚ :=
  sources.foldl (fun acc src =>
    match src pageKey with
    | none => acc
    | some entry => extendEdgeExternal entry idA idB acc) acc

/-!  Specification-side predicates for the bounding-box strategy (worded after
the spec, to be compared with the source embeddings above). -/

/-- Spec wording for vertical separation: the separator's horizontal midpoint
lies between the two regions' x-ranges (in either order, boundary contact
included), and at least one region's y-range overlaps the separator's
y-range. -/
def specVerticallySeparated (bba bbb bbs : BBox) : Prop :=
  (((bba.maxX : ℚ) ≤ ((bbs.minX + bbs.maxX : ℤ) : ℚ) / 2 ∧
      ((bbs.minX + bbs.maxX : ℤ) : ℚ) / 2 ≤ (bbb.minX : ℚ)) ∨
   ((bbb.maxX : ℚ) ≤ ((bbs.minX + bbs.maxX : ℤ) : ℚ) / 2 ∧
      ((bbs.minX + bbs.maxX : ℤ) : ℚ) / 2 ≤ (bba.minX : ℚ))) ∧
  ((bba.maxY ≥ bbs.minY ∧ bba.minY ≤ bbs.maxY) ∨ (bbb.maxY ≥ bbs.minY ∧ bbb.minY ≤ bbs.maxY))

/-- Spec wording for horizontal separation, read literally: the separator's
y-range lies between the two regions' y-ranges with one region above and one
region below it (in image coordinates, a region is above the separator when
its bottom edge is at most the separator's top edge), and it is false that
both regions lie entirely left of, or both entirely right of, the separator's
x-range. -/
def specHorizontallySeparatedLiteral (bba bbb bbs : BBox) : Prop :=
  ((bba.maxY ≤ bbs.minY ∧ bbs.maxY ≤ bbb.minY) ∨ (bbb.maxY ≤ bbs.minY ∧ bbs.maxY ≤ bba.minY)) ∧
  ¬ ((bba.maxX ≤ bbs.minX ∧ bbb.maxX ≤ bbs.minX) ∨ (bba.minX ≥ bbs.maxX ∧ bbb.minX ≥ bbs.maxX))

/-- The horizontal condition the source actually implements: the separator's
y-range is contained in the span from one region's top edge to the other
region's bottom edge (which allows the separator to overlap either region),
and it is false that both regions lie entirely on the same side of the
separator's x-range. -/
def specHorizontallySeparatedAmended (bba bbb bbs : BBox) : Prop :=
  ((bba.minY ≤ bbs.minY ∧ bbs.maxY ≤ bbb.maxY) ∨ (bbb.minY ≤ bbs.minY ∧ bbs.maxY ≤ bba.maxY)) ∧
  ¬ ((bba.maxX ≤ bbs.minX ∧ bbb.maxX ≤ bbs.minX) ∨ (bba.minX ≥ bbs.maxX ∧ bbb.minX ≥ bbs.maxX))

/-- C3 (counterexample): with region A spanning y 0..100, region B y 55..200
and a separator spanning y 50..60 (all x-ranges 0..100), the separator's
y-range overlaps both regions — it does not lie between them with one region
above and one below — yet `is_horizontally_separated` returns true, because
the source only compares the separator's top to one region's top and the
separator's bottom to the other region's bottom. -/
theorem c3_horizontal_not_between_counterexample :
    is_horizontally_separated 0 100 0 100 0 100 55 200 0 100 50 60 = true ∧
    ¬ specHorizontallySeparatedLiteral ⟨0, 100, 0, 100⟩ ⟨0, 100, 55, 200⟩ ⟨0, 100, 50, 60⟩ := by
  constructor
  · decide
  · simp only [specHorizontallySeparatedLiteral]
    decide

/-- C3 (amended): the bounding-box predicates satisfy iff-characterizations,
with the horizontal first conjunct amended to containment of the separator's
y-range in the span from one region's top to the other region's bottom:
`is_vertically_separated` holds iff the separator's horizontal midpoint lies
(inclusively) between the two regions' x-ranges and at least one region's
y-range overlaps the separator's y-range; `is_horizontally_separated` holds
iff the amended y-condition holds and it is false that both regions lie
entirely to one side of the separator's x-range. -/
theorem c3_bb_predicates_iff_amended (bba bbb bbs : BBox) :
    (is_vertically_separated bba.minX bba.maxX bba.minY bba.maxY
        bbb.minX bbb.maxX bbb.minY bbb.maxY
        bbs.minX bbs.maxX bbs.minY bbs.maxY = true ↔
      specVerticallySeparated bba bbb bbs) ∧
    (is_horizontally_separated bba.minX bba.maxX bba.minY bba.maxY
        bbb.minX bbb.maxX bbb.minY bbb.maxY
        bbs.minX bbs.maxX bbs.minY bbs.maxY = true ↔
      specHorizontallySeparatedAmended bba bbb bbs) := by
  constructor
  · simp only [is_vertically_separated, specVerticallySeparated]
    split_ifs with h1 h2 <;> simp_all
  · simp only [is_horizontally_separated, specHorizontallySeparatedAmended]
    split_ifs with h1 h2 <;> simp_all

/-- C6: both separator-classification strategies are symmetric in the two
region arguments: the line strategy's 2-vector for (A, B) equals the one for
(B, A) (the connecting segment has the same endpoints either way), and the
bounding-box strategy's 2-vector likewise. -/
theorem c6_separator_features_symmetric (ta tb : TextRegion) (seps : List SeparatorRegion) :
    (get_edge_separator_feature_line ta tb seps).1 = (get_edge_separator_feature_line tb ta seps).1 ∧
    get_edge_separator_feature_bb ta tb seps = get_edge_separator_feature_bb tb ta seps := by
  constructor
  · simp only [get_edge_separator_feature_line,
      lineSepLoop_swap (regionCenter ta) (regionCenter tb)]
  · simp only [get_edge_separator_feature_bb,
      bbSepLoop_swap (get_bounding_box ta.points) (get_bounding_box tb.points)]

/-!  Concrete fixtures for the line-strategy evaluations: two text regions
side by side (centers (5, 50) and (105, 50)), and a wide separator between
them (bounding box x 40..70, y 45..55, aspect ratio 1/3) that carries the
explicit orientation tag "vertical". -/

/-- Left text region of the fixture. -/
def trFixtureA : TextRegion :=
  ⟨"a", [(0, 0), (10, 0), (10, 100), (0, 100)], [⟨"la", "left"⟩], "paragraph"⟩

/-- Right text region of the fixture. -/
def trFixtureB : TextRegion :=
  ⟨"b", [(100, 0), (110, 0), (110, 100), (100, 100)], [⟨"lb", "right"⟩], "paragraph"⟩

/-- The separator of the fixture: tagged "vertical", but wide (ratio 1/3),
with an open surrounding polygon (first point distinct from last point). -/
def sepFixture : SeparatorRegion :=
  ⟨"s", [(40, 45), (70, 45), (70, 55), (40, 55)], some "vertical"⟩

/-- C1: in the line strategy, a separator whose orientation tag is "vertical"
does not set the vertical flag.  The source compares the SeparatorRegion
object — not its orientation tag — to the string 'vertical'
(feature_generation.py:297), which is always False in Python, so the
aspect-ratio fallback runs even though the tag is set: the fixture separator
(tag "vertical", ratio 1/3 < 5) is hit by the center segment and yields the
feature [1.0, 0.0] (horizontal flag) where the claim requires [0.0, 1.0]. -/
theorem c1_vertical_tag_ignored_line_strategy :
    (get_edge_separator_feature_line trFixtureA trFixtureB [sepFixture]).1 = [1, 0] ∧
    sepFixture.orientation = some "vertical" := by
  constructor
  · norm_num [get_edge_separator_feature_line, lineSepLoop, regionCenter, get_bounding_box,
      line_poly_intersection, closePoly, polySegments, segmentsIntersect, orientQ, onSegment,
      line_in_bounding_box, sepRatio, separatorEqString, classifySeparatorHit, toQ, trFixtureA, trFixtureB, sepFixture,
      min_def, max_def]
  · rfl

/-- C4 (counterexample): the line strategy is not pure.  On the fixture, the
precise polygon test closes the separator's open polygon in place
(`line_poly_intersection` appends the first point, feature_generation.py:324),
so after the call the separator's point list has gained a fifth point and is
no longer the input sequence. -/
theorem c4_line_strategy_mutates_polygon :
    (get_edge_separator_feature_line trFixtureA trFixtureB [sepFixture]).2 =
      [⟨"s", [(40, 45), (70, 45), (70, 55), (40, 55), (40, 45)], some "vertical"⟩] ∧
    (get_edge_separator_feature_line trFixtureA trFixtureB [sepFixture]).2 ≠ [sepFixture] := by
  have heval : (get_edge_separator_feature_line trFixtureA trFixtureB [sepFixture]).2 =
      [⟨"s", [(40, 45), (70, 45), (70, 55), (40, 55), (40, 45)], some "vertical"⟩] := by
    norm_num [get_edge_separator_feature_line, lineSepLoop, regionCenter, get_bounding_box,
      line_poly_intersection, closePoly, polySegments, segmentsIntersect, orientQ, onSegment,
      line_in_bounding_box, sepRatio, separatorEqString, classifySeparatorHit, toQ, trFixtureA, trFixtureB, sepFixture,
      min_def, max_def]
  refine ⟨heval, ?_⟩
  rw [heval]
  simp [sepFixture]

/-- Closing a polygon either leaves it unchanged (already closed, or empty)
or appends a copy of its first point. -/
theorem closePoly_cases (poly : List IPoint) :
    closePoly poly = poly ∨ closePoly poly = poly ++ poly.head?.toList := by
  unfold closePoly
  split
  · right; rfl
  · left; rfl

/-- Through the line-strategy loop, each separator of the input list
corresponds in order to a separator of the returned list with the same id and
orientation, whose point list is either unchanged or the original with its
first point appended. -/
theorem lineSepLoop_points (a b : QPoint) :
    ∀ (l : List SeparatorRegion) (h v : Bool),
      List.Forall₂ (fun s s1 => s1.id = s.id ∧ s1.orientation = s.orientation ∧
          (s1.points = s.points ∨ s1.points = s.points ++ s.points.head?.toList))
        l (lineSepLoop a b l h v).2.2
  | [], h, v => by simp [lineSepLoop]
  | s :: rest, h, v => by
    simp only [lineSepLoop, line_poly_intersection]
    split
    · split
      · split
        · refine List.Forall₂.cons ?_ ?_
          · exact ⟨rfl, rfl, closePoly_cases s.points⟩
          · exact List.forall₂_same.mpr (fun x _ => ⟨rfl, rfl, Or.inl rfl⟩)
        · refine List.Forall₂.cons ?_ ?_
          · exact ⟨rfl, rfl, closePoly_cases s.points⟩
          · exact lineSepLoop_points a b rest _ _
      · refine List.Forall₂.cons ?_ ?_
        · exact ⟨rfl, rfl, closePoly_cases s.points⟩
        · exact lineSepLoop_points a b rest h v
    · refine List.Forall₂.cons ?_ ?_
      · exact ⟨rfl, rfl, Or.inl rfl⟩
      · exact lineSepLoop_points a b rest h v

/-- C4 (amended): the bounding-box strategy computes its feature from its
arguments alone, and the line strategy leaves every separator's id and
orientation unchanged and its polygon point list either unchanged or closed in
place by appending a copy of its first point — no other modification of the
inputs occurs. -/
theorem c4_amended_line_strategy_mutation_bound (ta tb : TextRegion) (seps : List SeparatorRegion) :
    List.Forall₂ (fun s s1 => s1.id = s.id ∧ s1.orientation = s.orientation ∧
        (s1.points = s.points ∨ s1.points = s.points ++ s.points.head?.toList))
      seps (get_edge_separator_feature_line ta tb seps).2 := by
  simpa [get_edge_separator_feature_line] using
    lineSepLoop_points (regionCenter ta) (regionCenter tb) seps false false

/-- C10: a region discarded for having no text keeps its lines in the page's
line list: on a page with the single region "r1" whose only line "l1" has
empty text, the discard pass removes the region but returns the line list
still containing "l1", although the function's documentation (and the spec)
say the discarded region's lines are removed with it. -/
theorem c10_no_text_region_lines_not_removed :
    discard_text_regions_and_lines
        [⟨"r1", [(0, 0), (100, 0), (100, 100), (0, 100)], [⟨"l1", ""⟩], "paragraph"⟩]
        [⟨"l1", ""⟩] =
      ([], [⟨"l1", ""⟩]) := by
  decide

/-- A page whose processing raises no exception (it is either written or
skipped with a `None` return). -/
def pageOk (interaction : Interaction) (p : PageData) : Bool :=
  match build_input_and_target interaction p with
  | .ok _ => true
  | .error _ => false

/-- A page for which `build_input_and_target` returns a graph. -/
def pageWritten (interaction : Interaction) (p : PageData) : Bool :=
  match build_input_and_target interaction p with
  | .ok (some _) => true
  | _ => false

/-- A page for which `build_input_and_target` returns the `None` tuple. -/
def pageSkipped (interaction : Interaction) (p : PageData) : Bool :=
  match build_input_and_target interaction p with
  | .ok none => true
  | _ => false

/-- A page on which the Delaunay triangulation fails for the rounded and the
raw positions. -/
def pageDelaunayDegenerate : PageData := ⟨true, 5, true, false, false, []⟩

/-- A well-behaved page. -/
def pageHealthy : PageData := ⟨true, 2, true, true, true, []⟩

/-- C2 (counterexample): a fatal-for-page condition does not merely skip the
page.  In a batch whose first page fails the Delaunay triangulation on both
the rounded and the raw positions, the uncaught QhullError aborts the whole
loop: the batch result is the error, the failing page is not recorded in the
skipped list, and the healthy second page is never processed. -/
theorem c2_batch_aborts_counterexample :
    generate_feature_jsons .delaunay [pageDelaunayDegenerate, pageHealthy] =
      .error .qhullBothFailed := by
  rfl

/-- C2 (amended): only the `None`-returning conditions (no TextRegion, or
fewer than two surviving regions) are recorded as skipped while the batch
continues; when no page of the batch raises, every page is processed and the
result lists the written and the skipped pages in order.  Pages that raise
(missing image file, Delaunay failure on both attempts) abort the batch. -/
theorem c2_amended_batch_without_exceptions (interaction : Interaction) (pages : List PageData)
    (h : ∀ p ∈ pages, pageOk interaction p = true) :
    generate_feature_jsons interaction pages =
      .ok (pages.filter (pageWritten interaction), pages.filter (pageSkipped interaction)) := by
  induction pages with
  | nil => rfl
  | cons p rest ih =>
    have hp : pageOk interaction p = true := h p (by simp)
    have hrest : ∀ q ∈ rest, pageOk interaction q = true := fun q hq => h q (by simp [hq])
    simp only [generate_feature_jsons, List.filter_cons]
    cases hb : build_input_and_target interaction p with
    | error e => simp [pageOk, hb] at hp
    | ok o =>
      cases o with
      | none => rw [ih hrest]; simp [pageWritten, pageSkipped, hb]
      | some edges => rw [ih hrest]; simp [pageWritten, pageSkipped, hb]

/-- Witness for the amended C2 statement on a concrete two-page batch: the
healthy page is written and a page without TextRegions is skipped. -/
theorem c2_amended_batch_witness :
    (∀ p ∈ [pageHealthy, (⟨false, 0, true, true, true, []⟩ : PageData)],
      pageOk .fully p = true) ∧
    generate_feature_jsons .fully [pageHealthy, (⟨false, 0, true, true, true, []⟩ : PageData)] =
      .ok ([pageHealthy, (⟨false, 0, true, true, true, []⟩ : PageData)].filter (pageWritten .fully),
           [pageHealthy, (⟨false, 0, true, true, true, []⟩ : PageData)].filter (pageSkipped .fully)) :=
  ⟨by decide,
   c2_amended_batch_without_exceptions .fully
     [pageHealthy, (⟨false, 0, true, true, true, []⟩ : PageData)] (by decide)⟩

/-- C8: in Delaunay mode with fewer than four surviving nodes, the pipeline
takes the Fully branch (feature_generation.py:729-730), so the whole build
result — in particular the edge list — is the one Fully mode produces. -/
theorem c8_delaunay_small_page_equals_fully (p : PageData)
    (_h2 : 2 ≤ p.numNodes) (h4 : p.numNodes < 4) :
    build_input_and_target .delaunay p = build_input_and_target .fully p := by
  simp only [build_input_and_target]
  split_ifs with hTr hN hImg hSel hSel2 <;> simp_all

/-- Witness for C8 at a concrete three-node page. -/
theorem c8_delaunay_small_page_witness :
    2 ≤ (⟨true, 3, true, false, false, []⟩ : PageData).numNodes ∧
    (⟨true, 3, true, false, false, []⟩ : PageData).numNodes < 4 ∧
    build_input_and_target .delaunay ⟨true, 3, true, false, false, []⟩ =
      build_input_and_target .fully ⟨true, 3, true, false, false, []⟩ :=
  ⟨by decide, by decide,
   c8_delaunay_small_page_equals_fully ⟨true, 3, true, false, false, []⟩ (by decide) (by decide)⟩

theorem delIdx_append {α : Type} (xs ys : List α) (k : Nat) (P : Nat → Bool) :
    delIdx (xs ++ ys) k P = delIdx xs k P ++ delIdx ys (k + xs.length) P := by
  induction xs generalizing k with
  | nil => simp [delIdx]
  | cons x xs ih =>
    have harith : k + 1 + xs.length = k + (xs.length + 1) := by omega
    by_cases hP : P k <;>
      simp [delIdx, hP, ih, harith]

theorem delIdx_map_range {α : Type} (f : Nat → α) (m k : Nat) (P : Nat → Bool) :
    delIdx ((List.range m).map f) k P = ((List.range m).filter (fun j => !P (k + j))).map f := by
  induction m with
  | zero => simp [delIdx]
  | succ m ih =>
    by_cases hP : P (k + m) <;>
      simp [List.range_succ, List.filter_append, List.map_append, delIdx_append, ih, delIdx, hP]

theorem length_allPairs_prefix (n m : Nat) :
    ((List.range m).flatMap (fun i => (List.range n).map (fun j => (i, j)))).length = m * n := by
  induction m with
  | zero => simp
  | succ m ih =>
    simp only [List.range_succ, List.flatMap_append, List.length_append, ih,
      List.flatMap_cons, List.flatMap_nil, List.append_nil, List.length_map, List.length_range]
    ring

/-- For positions inside row `i`, the deleted flat positions
`t * (n + 1)` select exactly the diagonal entry `j = i`. -/
theorem selfPairPosition (n i j : Nat) (hi : i < n) (hj : j < n) :
    (((List.range n).map (fun t => t * (n + 1))).contains (i * n + j)) = decide (j = i) := by
  apply Bool.eq_iff_iff.mpr
  rw [List.contains_iff_exists_mem_beq]
  simp only [List.mem_map, List.mem_range, beq_iff_eq, decide_eq_true_eq]
  constructor
  · rintro ⟨x, ⟨t, ht, rfl⟩, he⟩
    have he2 : t * n + t = i * n + j := by rw [he]; ring
    have h1 : (t * n + t) % n = t % n := by
      rw [Nat.add_comm, Nat.add_mul_mod_self_right]
    have h2 : (i * n + j) % n = j % n := by
      rw [Nat.add_comm, Nat.add_mul_mod_self_right]
    have h3 : (t * n + t) / n = t + t / n := by
      rw [Nat.mul_comm t n, Nat.mul_add_div (by omega)]
    have h4 : (i * n + j) / n = i + j / n := by
      rw [Nat.mul_comm i n, Nat.mul_add_div (by omega)]
    have ht2 : t % n = t := Nat.mod_eq_of_lt ht
    have hj2 : j % n = j := Nat.mod_eq_of_lt hj
    have ht3 : t / n = 0 := Nat.div_eq_of_lt ht
    have hj3 : j / n = 0 := Nat.div_eq_of_lt hj
    have hteqj : t = j := by
      have := congrArg (fun x => x % n) he2
      simpa [h1, h2, ht2, hj2] using this
    have hteqi : t = i := by
      have := congrArg (fun x => x / n) he2
      simpa [h3, h4, ht3, hj3] using this
    omega
  · rintro rfl
    exact ⟨j * (n + 1), ⟨j, hj, rfl⟩, by have : j * (n + 1) = j * n + j := by ring
                                         rw [this]⟩

theorem fully_connected_edges_prefix (n m : Nat) (hm : m ≤ n) :
    delIdx ((List.range m).flatMap (fun i => (List.range n).map (fun j => (i, j)))) 0
        (fun k => (((List.range n).map (fun t => t * (n + 1))).contains k)) =
      (List.range m).flatMap (fun i => ((List.range n).filter (fun j => j ≠ i)).map (fun j => (i, j))) := by
  induction m with
  | zero => simp [delIdx]
  | succ m ih =>
    rw [List.range_succ, List.flatMap_append, List.flatMap_append, delIdx_append,
      ih (by omega), length_allPairs_prefix, Nat.zero_add]
    simp only [List.flatMap_cons, List.flatMap_nil, List.append_nil]
    rw [delIdx_map_range]
    congr 1
    refine congrArg (List.map fun j => (m, j)) (List.filter_congr ?_)
    intro j hj
    rw [selfPairPosition n m j (by omega) (List.mem_range.mp hj)]
    simp [decide_not]

theorem filterNeLength (n i : Nat) (hi : i < n) :
    ((List.range n).filter (fun j => j ≠ i)).length = n - 1 := by
  induction n with
  | zero => omega
  | succ m ih =>
    rw [List.range_succ, List.filter_append, List.length_append]
    by_cases hmi : i = m
    · subst hmi
      have hf : (List.range i).filter (fun j => j ≠ i) = List.range i :=
        List.filter_eq_self.mpr (fun a ha => by
          simp only [List.mem_range] at ha
          simp only [decide_eq_true_eq]
          omega)
      have hf2 : ([i].filter (fun j => j ≠ i)) = [] := by simp
      rw [hf, hf2]
      simp
    · rw [ih (by omega)]
      have hf2 : ([m].filter (fun j => j ≠ i)) = [m] := by simp [Ne.symm hmi]
      rw [hf2]
      simp only [List.length_range, List.length_cons, List.length_nil]
      omega

/-- C7: for every `n ≥ 2`, `fully_connected_edges` returns exactly the
row-major list of ordered pairs with the self-pairs removed — the
deterministic outer-source/inner-target order — hence exactly `n * (n - 1)`
directed edges and no self-loop. -/
theorem c7_fully_connected_edges_spec (n : Nat) (_h2 : 2 ≤ n) :
    fully_connected_edges n = orderedPairsNoSelf n ∧
    (fully_connected_edges n).length = n * (n - 1) ∧
    ∀ e ∈ fully_connected_edges n, e.1 ≠ e.2 := by
  have heq : fully_connected_edges n = orderedPairsNoSelf n := by
    unfold fully_connected_edges allPairsRowMajor orderedPairsNoSelf
    exact fully_connected_edges_prefix n n (le_refl n)
  refine ⟨heq, ?_, ?_⟩
  · rw [heq]
    unfold orderedPairsNoSelf
    rw [List.length_flatMap]
    have hrows : List.map
          (List.length ∘ fun i => ((List.range n).filter (fun j => j ≠ i)).map (fun j => (i, j)))
          (List.range n)
        = List.map (fun _ => n - 1) (List.range n) := by
      apply List.map_congr_left
      intro i hi
      simp only [Function.comp_apply, List.length_map]
      exact filterNeLength n i (List.mem_range.mp hi)
    rw [hrows, List.map_const', List.sum_replicate, List.length_range, smul_eq_mul]
  · intro e he
    rw [heq] at he
    unfold orderedPairsNoSelf at he
    simp only [List.mem_flatMap, List.mem_map, List.mem_filter, List.mem_range] at he
    obtain ⟨i, hi, j, ⟨hj, hne⟩, rfl⟩ := he
    exact Ne.symm (by simpa using hne)

/-- Witness for C7 at `n = 3`: six edges in row-major order, none a
self-loop. -/
theorem c7_fully_connected_edges_witness :
    fully_connected_edges 3 = orderedPairsNoSelf 3 ∧
    (fully_connected_edges 3).length = 3 * (3 - 1) ∧
    ∀ e ∈ fully_connected_edges 3, e.1 ≠ e.2 :=
  c7_fully_connected_edges_spec 3 (by decide)

theorem getD_map_effectiveId (assigns : List ArticleId) (i : Nat) (hi : i < assigns.length) :
    (assigns.map effectiveId).getD i (.single "") = effectiveId (assigns.getD i (.single "")) := by
  rw [List.getD_eq_getElem?_getD, List.getD_eq_getElem?_getD, List.getElem?_map]
  cases h : assigns[i]? with
  | none =>
    exact absurd (List.getElem?_eq_none_iff.mp h) (by omega)
  | some a => rfl

/-- C5: the ground-truth relation list contains `(1, i, j)` exactly for the
in-range ordered pairs whose effective article ids agree (a list of more than
one id counting as its first id); consequently the relation set is symmetric,
and reflexive on every surviving node. -/
theorem c5_gt_relations_characterization (assigns : List ArticleId) (i j : Nat) :
    ((1, i, j) ∈ gtRelations assigns ↔
      i < assigns.length ∧ j < assigns.length ∧
        effectiveId (assigns.getD i (.single "")) = effectiveId (assigns.getD j (.single ""))) ∧
    ((1, i, j) ∈ gtRelations assigns ↔ (1, j, i) ∈ gtRelations assigns) ∧
    (i < assigns.length → (1, i, i) ∈ gtRelations assigns) := by
  have hm : ∀ a b : Nat, ((1, a, b) ∈ gtRelations assigns ↔
      a < assigns.length ∧ b < assigns.length ∧
        effectiveId (assigns.getD a (.single "")) = effectiveId (assigns.getD b (.single ""))) := by
    intro a b
    simp only [gtRelations, trGtArticleIds, List.mem_flatMap, List.mem_filterMap, List.mem_range,
      List.length_map]
    constructor
    · rintro ⟨x, hx, y, hy, hxy⟩
      by_cases hc : (assigns.map effectiveId).getD x (.single "") =
          (assigns.map effectiveId).getD y (.single "")
      · rw [if_pos hc] at hxy
        simp only [Option.some.injEq, Prod.mk.injEq, true_and] at hxy
        obtain ⟨hax, hby⟩ := hxy
        subst hax
        subst hby
        refine ⟨hx, hy, ?_⟩
        rw [← getD_map_effectiveId assigns x hx, ← getD_map_effectiveId assigns y hy]
        exact hc
      · rw [if_neg hc] at hxy
        exact absurd hxy (by simp)
    · rintro ⟨ha, hb, heq⟩
      refine ⟨a, ha, b, hb, ?_⟩
      rw [if_pos]
      rw [getD_map_effectiveId assigns a ha, getD_map_effectiveId assigns b hb]
      exact heq
  refine ⟨hm i j, ?_, ?_⟩
  · rw [hm i j, hm j i]
    constructor
    · rintro ⟨h1, h2, h3⟩; exact ⟨h2, h1, h3.symm⟩
    · rintro ⟨h1, h2, h3⟩; exact ⟨h2, h1, h3.symm⟩
  · intro hi
    exact (hm i i).mpr ⟨hi, hi, rfl⟩

/-- Witness for C5 on a two-region page with equal single ids "x": the
identity relation (1, 0, 0) is present. -/
theorem c5_gt_relations_witness :
    (1, 0, 0) ∈ gtRelations [ArticleId.single "x", ArticleId.single "x"] :=
  (c5_gt_relations_characterization [ArticleId.single "x", ArticleId.single "x"] 0 0).2.2
    (by decide)

/-- C9: when an external source's per-page table misses both the specific
entry and the source-level "default", feature assembly appends the hardcoded
scalar — 0.0 for a node feature and 0.5 for an edge feature — and the
lookup functions are total, so no error propagates. -/
theorem c9_external_fallback_defaults (src : String → Option ExtPageEntry) (entry : ExtPageEntry)
    (ntbl : String → Option (List ℚ)) (etbl : String → Option (String → Option (List ℚ)))
    (pageKey regionId idA idB : String) (accN accE : List ℚ)
    (hsrc : src pageKey = some entry)
    (hnode : entry.nodeTable = some (ntbl, none))
    (hn : ntbl regionId = none)
    (hedge : entry.edgeTable = some (etbl, none))
    (he : edgeSpecificLookup etbl idA idB = none) :
    appendExternalNodeFeatures [src] pageKey regionId accN = accN ++ [0] ∧
    appendExternalEdgeFeatures [src] pageKey idA idB accE = accE ++ [1/2] := by
  constructor
  · simp [appendExternalNodeFeatures, extendNodeExternal, hsrc, hnode, hn]
  · simp [appendExternalEdgeFeatures, extendEdgeExternal, hsrc, hedge, he]

/-- Witness for C9 on a concrete source whose tables are empty. -/
theorem c9_external_fallback_witness :
    appendExternalNodeFeatures
        [fun _ => some ⟨some (fun _ => none, none), some (fun _ => none, none)⟩] "p" "r" [] =
      [] ++ [0] ∧
    appendExternalEdgeFeatures
        [fun _ => some ⟨some (fun _ => none, none), some (fun _ => none, none)⟩] "p" "x" "y" [] =
      [] ++ [1/2] :=
  c9_external_fallback_defaults
    (fun _ => some ⟨some (fun _ => none, none), some (fun _ => none, none)⟩)
    ⟨some (fun _ => none, none), some (fun _ => none, none)⟩
    (fun _ => none) (fun _ => none) "p" "r" "x" "y" [] []
    rfl rfl rfl rfl rfl

end ArticleSep
